import Mathlib

/-!
Verification of the order-event-to-notification pipeline of gnosis/dex-bot.

The embedding follows the `onNewOrder` handler of the Telegram bot source:
price normalization via bignumber.js arithmetic, token display labels,
trade-window description, amount formatting, markdown message composition.

External numeric libraries are modelled as follows:
* bignumber.js values are arbitrary-precision decimals; `dividedBy` rounds the
  quotient to 20 decimal places (the library default `DECIMAL_PLACES = 20`,
  `ROUNDING_MODE = ROUND_HALF_UP`, rounding ties away from zero) and division
  by zero yields `Infinity` / `NaN` rather than throwing.
* `10 ** (a - b)` in JS doubles round-trips exactly through `toString` for all
  powers of ten below `1e309`, so the precision factor is the exact `10 ^ d`.
* `new BN(s)` (bn.js) accepts only an optionally-signed decimal digit string;
  a string holding a fractional point or exponent marker (as produced by
  bignumber.js `toString` for non-integers or magnitudes `≥ 1e21`) throws.
-/

set_option maxRecDepth 40000

namespace DexBot

/-- A token as delivered by the event source: address, optional symbol and
name, and its decimal precision. -/
structure Token where
  address : String
  symbol : Option String
  name : Option String
  decimals : Nat
  deriving DecidableEq, Repr

/-- An order-placement event payload (the fields the handler destructures).
Timestamps are millisecond instants; the price fields are the raw
arbitrary-precision integers from the contract. -/
structure Order where
  owner : String
  buyToken : Token
  sellToken : Token
  validFrom : Int
  validUntil : Int
  priceNumerator : Int
  priceDenominator : Int
  deriving DecidableEq, Repr

/-- A bignumber.js value: a finite decimal, a signed infinity, or NaN. -/
inductive BigVal where
  | num (q : ℚ)
  | posInf
  | negInf
  | nan
  deriving DecidableEq, Repr

/-- Round-half-up (ties away from zero) to an integer, as bignumber.js
`ROUND_HALF_UP` does. -/
def roundHalfUp (x : ℚ) : ℤ :=
  if 0 ≤ x then ⌊x + 1 / 2⌋ else -⌊-x + 1 / 2⌋

/-- Round a rational to 20 decimal places, half-up: the rounding bignumber.js
applies to the result of a division under its default configuration. -/
def round20Q (x : ℚ) : ℚ :=
  (roundHalfUp (x * 10 ^ 20) : ℚ) / 10 ^ 20

/-- bignumber.js `dividedBy`: quotient rounded to 20 decimal places; division
by zero yields a signed infinity (or NaN for `0/0`).  The pipeline only ever
divides finite values, so the remaining cases are collapsed to NaN. -/
def BigVal.dividedBy : BigVal → BigVal → BigVal
  | .num a, .num b =>
    if b = 0 then
      if a = 0 then .nan else if 0 < a then .posInf else .negInf
    else .num (round20Q (a / b))
  | _, _ => .nan

/-- The price computation of `onNewOrder`:
if `buyToken.decimals >= sellToken.decimals` then
`priceNumerator.dividedBy(priceDenominator.multipliedBy(10 ** (buy - sell)))`
else `priceNumerator.multipliedBy(10 ** (sell - buy)).dividedBy(priceDenominator)`.
bignumber.js multiplication is exact. -/
def calcPrice (priceNumerator priceDenominator : ℚ) (buyDecimals sellDecimals : Nat) : BigVal :=
  if buyDecimals ≥ sellDecimals then
    let precisionFactor : ℚ := 10 ^ (buyDecimals - sellDecimals)
    BigVal.dividedBy (.num priceNumerator) (.num (priceDenominator * precisionFactor))
  else
    let precisionFactor : ℚ := 10 ^ (sellDecimals - buyDecimals)
    BigVal.dividedBy (.num (priceNumerator * precisionFactor)) (.num priceDenominator)

/-! ### Decimal digit strings -/

/-- Base-10 digits of `n`, least significant first, with explicit fuel so the
recursion is structural (`natDigitsRev_eq_digits` identifies it with
`Nat.digits 10`). -/
def natDigitsRev : Nat → Nat → List Nat
  | 0, _ => []
  | fuel + 1, n => if n = 0 then [] else n % 10 :: natDigitsRev fuel (n / 10)

/-- Decimal rendering of a natural number (most significant digit first). -/
def natToStr (n : Nat) : String :=
  if n = 0 then "0"
  else ⟨(natDigitsRev n n).reverse.map fun d => Char.ofNat (48 + d)⟩

/-- Left-pad a character list to length `n` with `'0'`. -/
def padZeros (n : Nat) (cs : List Char) : List Char :=
  List.replicate (n - cs.length) '0' ++ cs

/-- Drop trailing `'0'` characters. -/
def trimTrailingZeros (cs : List Char) : List Char :=
  (cs.reverse.dropWhile (· = '0')).reverse

/-- Render `n / 10 ^ 20` as a plain decimal string, trimming trailing
fractional zeros.  Modelled from bignumber.js `toString` restricted to the
plain-notation range (`|v| < 1e21` and not in the small-exponent range); the
pipeline theorems below only evaluate it there. -/
def renderScaled (n : ℤ) : String :=
  let a := n.natAbs
  let ip := a / 10 ^ 20
  let fp := a % 10 ^ 20
  let sign := if n < 0 then "-" else ""
  if fp = 0 then sign ++ natToStr ip
  else sign ++ natToStr ip ++ "." ++ ⟨trimTrailingZeros (padZeros 20 (natToStr fp).data)⟩

/-- bignumber.js `toString` on the values the pipeline produces. -/
def bigToStr : BigVal → String
  | .num q => renderScaled (q * 10 ^ 20 : ℚ).num
  | .posInf => "Infinity"
  | .negInf => "-Infinity"
  | .nan => "NaN"

/-! ### Amount formatting

`formatAmount` / `formatAmountFull` are imported from `utils/format`, which is
not part of the repository sources available here; they are modelled from the
spec (§4.2 Amount Formatter). -/

/-- The error taxonomy of the spec (§7) for a single event's processing. -/
inductive FormatError where
  | invalidOrderData
  deriving DecidableEq, Repr

deriving instance DecidableEq for Except

/-- Modelled from the spec: full-precision format of a non-negative integer
raw amount — "the exact value with all `decimals` fractional digits
preserved".  For `decimals = 0` the bare integer is rendered. -/
def formatAmountFull (amount : Nat) (decimals : Nat) : String :=
  if decimals = 0 then natToStr amount
  else
    natToStr (amount / 10 ^ decimals) ++ "." ++
      ⟨padZeros decimals (natToStr (amount % 10 ^ decimals)).data⟩

/-- Modelled from the spec: number of fractional digits kept by the truncated
display format ("fixed, small number of significant fractional digits"). -/
def displayDecimals : Nat := 4

/-- Modelled from the spec: display format — the raw amount truncated to a
fixed small number of fractional digits. -/
def formatAmount (amount : Nat) (decimals : Nat) : String :=
  let dd := min decimals displayDecimals
  formatAmountFull (amount / 10 ^ (decimals - dd)) dd

/-- Modelled from the spec: malformed numeric fields fail with
`InvalidOrderData` (§7) — a negative raw amount is rejected before
formatting. -/
def formatAmountZ (amount : ℤ) (decimals : Nat) : Except FormatError String :=
  if amount < 0 then .error .invalidOrderData
  else .ok (formatAmount amount.toNat decimals)

/-- Modelled from the spec: full-precision formatting of an integer raw
amount; negative amounts fail with `InvalidOrderData` (§7). -/
def formatAmountFullZ (amount : ℤ) (decimals : Nat) : Except FormatError String :=
  if amount < 0 then .error .invalidOrderData
  else .ok (formatAmountFull amount.toNat decimals)

/-- Modelled from the spec: the protocol fee denominator (`FEE_DENOMINATOR`
from `const`, not among the sources here). -/
def feeDenominator : ℚ := 1000

/-- `FACTOR_TO_FILL_ORDER = 1 + 2 / FEE_DENOMINATOR`: the fill-safety factor.
The JS double `1 + 2 / 1000` prints as `"1.002"`, so the bignumber.js factor
is the exact decimal. -/
def factorToFillOrder : ℚ := 1 + 2 / feeDenominator

/-- The fill-safety amount: `priceNumerator.multipliedBy(FACTOR_TO_FILL_ORDER)`
(bignumber.js multiplication is exact). -/
def fillSafetyAmount (priceNumerator : ℚ) : ℚ :=
  priceNumerator * factorToFillOrder

/-- `new BN(q.toString())` on a bignumber.js value `q`: succeeds only when
`toString` yields a plain signed digit string, i.e. when `q` is an integer of
magnitude below `1e21` (larger integers print in exponent notation, which
bn.js rejects).  Modelled from the spec's error taxonomy: the failure counts
as `InvalidOrderData` (§7, malformed numeric fields). -/
def bnFromBig (q : ℚ) : Except FormatError ℤ :=
  if q.den = 1 ∧ q.num.natAbs < 10 ^ 21 then .ok q.num
  else .error .invalidOrderData

/-- `formatAmount(new BN(q.toString()), decimals)`: the display-format path of
the pipeline on a raw bignumber.js amount. -/
def formatAmountPath (q : ℚ) (decimals : Nat) : Except FormatError String := do
  let z ← bnFromBig q
  formatAmountZ z decimals

/-- `formatAmountFull(new BN(q.toString()), decimals)`: the full-precision
path of the pipeline on a raw bignumber.js amount. -/
def formatAmountFullPath (q : ℚ) (decimals : Nat) : Except FormatError String := do
  let z ← bnFromBig q
  formatAmountFullZ z decimals

/-- `formatAmountFull(new BN(q.multipliedBy(FACTOR_TO_FILL_ORDER).toString()),
decimals)`: the fill-safety formatting path of the pipeline. -/
def fillSafetyPath (q : ℚ) (decimals : Nat) : Except FormatError String := do
  let z ← bnFromBig (fillSafetyAmount q)
  formatAmountFullZ z decimals

/-! ### Trade-window description -/

/-- The "not yet tradable" line (including its trailing newline, as the
source appends it). -/
def tradableLine (calFrom relFrom : String) : String :=
  "  - *Tradable*: `" ++ calFrom ++ " GMT`, `" ++ relFrom ++ "`\n"

/-- The "expires" line. -/
def expiresLine (calUntil relUntil : String) : String :=
  "  - *Expires*: `" ++ calUntil ++ " GMT`, `" ++ relUntil ++ "`"

/-- `datesDescription` of `onNewOrder`: the tradable line exactly when
`validFrom > now`, always followed by the expires line.  The four string
arguments are the `moment(..).calendar()` / `moment(..).fromNow()`
renderings of `validFrom` and `validUntil`. -/
def datesDescription (validFrom now : Int) (calFrom relFrom calUntil relUntil : String) : String :=
  (if now < validFrom then tradableLine calFrom relFrom else "") ++
    expiresLine calUntil relUntil

/-- The lines of the trade-window description (the description is their
newline-joined rendering, see `datesDescription_eq_intercalate`). -/
def descLines (validFrom now : Int) (calFrom relFrom calUntil relUntil : String) : List String :=
  (if now < validFrom then ["  - *Tradable*: `" ++ calFrom ++ " GMT`, `" ++ relFrom ++ "`"]
   else []) ++ [expiresLine calUntil relUntil]

/-! ### Labels and message composition -/

/-- JS `a || b` on an optional string: `b` when `a` is absent or empty. -/
def orElseStr (a : Option String) (b : String) : String :=
  match a with
  | some s => if s = "" then b else s
  | none => b

/-- `sellToken.symbol || sellToken.name || sellToken.address`. -/
def tokenLabel (t : Token) : String :=
  orElseStr t.symbol (orElseStr t.name t.address)

/-- The spec's words for the display label: "symbol, else name, else address
(first non-empty, in that priority)". -/
def labelSpec (t : Token) : String :=
  (([t.symbol.getD "", t.name.getD "", t.address].filter (fun s => !s.isEmpty)).headD
    t.address)

/-- The markdown message template of `onNewOrder`. -/
def composeMessage (sellAmountFmt sellLabel buyAmountFmt buyLabel priceStr dates baseUrl
    fillSellFmt buyFullFmt : String) : String :=
  "Sell *" ++ sellAmountFmt ++ "* `" ++ sellLabel ++ "` for *" ++ buyAmountFmt ++ "* `" ++
    buyLabel ++ "`\n\n  - *Price*:  1 `" ++ sellLabel ++ "` = " ++ priceStr ++ " `" ++
    buyLabel ++ "`\n" ++ dates ++ "\n\nFill the order here: " ++ baseUrl ++ "/trade/" ++
    buyLabel ++ "-" ++ sellLabel ++ "?sell=" ++ fillSellFmt ++ "&buy=" ++ buyFullFmt

/-! ### The pipeline -/

/-- One `onNewOrder` invocation, as an explicit function of the processing
instant `now`, the `WEB_BASE_URL` configuration, and the moment.js calendar
and relative renderers.  Mirrors the statement order of the source; the first
failing formatting step aborts the event. -/
def processOrder (baseUrl : String) (calFn relFn : Int → String) (now : Int) (o : Order) :
    Except FormatError String := do
  let price := calcPrice o.priceNumerator o.priceDenominator o.buyToken.decimals
    o.sellToken.decimals
  let sellTokenLabel := tokenLabel o.sellToken
  let buyTokenLabel := tokenLabel o.buyToken
  let dates := datesDescription o.validFrom now (calFn o.validFrom) (relFn o.validFrom)
    (calFn o.validUntil) (relFn o.validUntil)
  let sellAmountFmt ← formatAmountPath o.priceDenominator o.sellToken.decimals
  let buyAmountFmt ← formatAmountPath o.priceNumerator o.buyToken.decimals
  let fillSellAmountFmt ← fillSafetyPath o.priceNumerator o.buyToken.decimals
  let buyAmountFullFmt ← formatAmountFullPath o.priceDenominator o.sellToken.decimals
  pure (composeMessage sellAmountFmt sellTokenLabel buyAmountFmt buyTokenLabel
    (bigToStr price) dates baseUrl fillSellAmountFmt buyAmountFullFmt)

/-- The messages handed to the notification sink for one event: the composed
message when processing succeeds, nothing when the event fails. -/
def sentMessages (r : Except FormatError String) : List String :=
  match r with
  | .ok m => [m]
  | .error _ => []

/-! ### Concrete fixtures

Tokens and orders used to evaluate the pipeline at specific inputs: the
spec's end-to-end example order (§8) and a zero-denominator order. -/

def wethToken : Token :=
  { address := "0xc02aaa39b223fe8d0a0e5c4f27ead9083c756cc2", symbol := some "WETH",
    name := some "Wrapped Ether", decimals := 18 }

def usdcToken : Token :=
  { address := "0xa0b86991c6218b36c1d19d4a2e9eb0ce3606eb48", symbol := some "USDC",
    name := some "USD Coin", decimals := 6 }

def daiToken : Token :=
  { address := "0x6b175474e89094c44da98b954eedeac495271d0f", symbol := some "DAI",
    name := some "Dai Stablecoin", decimals := 18 }

/-- The end-to-end example order of the spec (§8): sell WETH (18 decimals)
for USDC (6 decimals), `priceNumerator = 2000000000`,
`priceDenominator = 10^18`, `validFrom` in the past, `validUntil` in the
future of the processing instant `500000`. -/
def exampleOrder : Order :=
  { owner := "0x1111111111111111111111111111111111111111", buyToken := usdcToken,
    sellToken := wethToken, validFrom := 1000, validUntil := 2000000,
    priceNumerator := 2000000000, priceDenominator := 1000000000000000000 }

/-- An order whose `priceDenominator` is `0` (the §4.1 edge case). -/
def zeroDenOrder : Order :=
  { owner := "0x1111111111111111111111111111111111111111", buyToken := wethToken,
    sellToken := daiToken, validFrom := 1000, validUntil := 2000000,
    priceNumerator := 1000000000000000000, priceDenominator := 0 }

/-- A stand-in for `moment(..).calendar()` at the two fixture instants. -/
def exampleCal : Int → String := fun t => if t = 1000 then "01/01/2020" else "02/01/2020"

/-- A stand-in for `moment(..).fromNow()` at the two fixture instants. -/
def exampleRel : Int → String := fun t => if t = 1000 then "a day ago" else "in a month"

/-- The base URL fixture (`WEB_BASE_URL`). -/
def exampleBaseUrl : String := "https://app.example.org"

/-! ### Parsing decimal strings (for the round-trip property) -/

/-- Fold an all-digit character list onto an accumulator, most significant
digit first; `none` on any non-digit. -/
def digitsValAux (acc : Nat) : List Char → Option Nat
  | [] => some acc
  | c :: cs => if c.isDigit then digitsValAux (10 * acc + (c.toNat - 48)) cs else none

/-- Value of an all-digit character list. -/
def digitsVal (cs : List Char) : Option Nat :=
  digitsValAux 0 cs

/-- Parse a plain decimal string `⟨digits⟩` or `⟨digits⟩.⟨digits⟩` into the
rational it denotes. -/
def parseDecimal (s : String) : Option ℚ :=
  let cs := s.data
  let ip := cs.takeWhile (· ≠ '.')
  match cs.dropWhile (· ≠ '.') with
  | [] => (digitsVal ip).map fun n => (n : ℚ)
  | c :: fs =>
    if c = '.' then
      match digitsVal ip, digitsVal fs with
      | some n, some f => some ((n : ℚ) + (f : ℚ) / 10 ^ fs.length)
      | _, _ => none
    else none

/-! ### Helper lemmas: digit strings -/

theorem natDigitsRev_eq_digits :
    ∀ fuel n : Nat, n ≤ fuel → natDigitsRev fuel n = Nat.digits 10 n := by
  intro fuel
  induction fuel with
  | zero =>
    intro n h
    interval_cases n
    simp [natDigitsRev]
  | succ f ih =>
    intro n h
    by_cases hn : n = 0
    · simp [natDigitsRev, hn]
    · have hlt : n / 10 < n := Nat.div_lt_self (Nat.pos_of_ne_zero hn) (by norm_num)
      rw [natDigitsRev, if_neg hn,
        Nat.digits_def' (by norm_num : 1 < 10) (Nat.pos_of_ne_zero hn), ih (n / 10) (by omega)]

/-- The characters of `natToStr n` are decimal digits. -/
theorem natToStr_mem_isDigit (n : Nat) : ∀ c ∈ (natToStr n).data, c.isDigit = true := by
  intro c hc
  unfold natToStr at hc
  by_cases hn : n = 0
  · rw [if_pos hn] at hc
    have hc' : c = '0' := by simpa using hc
    subst hc'
    decide
  · rw [if_neg hn] at hc
    simp only [String.data, natDigitsRev_eq_digits n n le_rfl, List.mem_map,
      List.mem_reverse] at hc
    obtain ⟨d, hd, rfl⟩ := hc
    have hd10 : d < 10 := Nat.digits_lt_base (by norm_num) hd
    interval_cases d <;> decide

theorem digit_char_ne_dot {c : Char} (h : c.isDigit = true) : c ≠ '.' := by
  intro hc
  subst hc
  simp [Char.isDigit] at h

/-- `digitsValAux` on an all-digit list folds the digit values. -/
theorem digitsValAux_all_digits :
    ∀ (cs : List Char) (acc : Nat), (∀ c ∈ cs, c.isDigit = true) →
      digitsValAux acc cs = some (cs.foldl (fun a c => 10 * a + (c.toNat - 48)) acc) := by
  intro cs
  induction cs with
  | nil => intro acc _; rfl
  | cons c cs ih =>
    intro acc h
    rw [digitsValAux, if_pos (h c (List.mem_cons_self c cs)), List.foldl_cons,
      ih _ fun x hx => h x (List.mem_cons_of_mem c hx)]

/-- Folding most-significant-first digit values equals `Nat.ofDigits` of the
least-significant-first digit list, shifted by the accumulator. -/
theorem foldl_reverse_ofDigits :
    ∀ (L : List Nat) (acc : Nat),
      L.reverse.foldl (fun a d => 10 * a + d) acc = acc * 10 ^ L.length + Nat.ofDigits 10 L := by
  intro L
  induction L with
  | nil => intro acc; simp [Nat.ofDigits_nil]
  | cons d L ih =>
    intro acc
    rw [List.reverse_cons, List.foldl_append, ih, Nat.ofDigits_cons, List.length_cons]
    simp only [List.foldl_cons, List.foldl_nil]
    ring

theorem digitChar_toNat {d : Nat} (h : d < 10) : (Char.ofNat (48 + d)).toNat - 48 = d := by
  interval_cases d <;> decide

/-- Parsing back the characters of `natToStr n` recovers `n`. -/
theorem digitsVal_natToStr (n : Nat) : digitsVal (natToStr n).data = some n := by
  rw [digitsVal, digitsValAux_all_digits _ _ (natToStr_mem_isDigit n)]
  unfold natToStr
  by_cases hn : n = 0
  · subst hn; rfl
  · rw [if_neg hn]
    simp only [String.data]
    rw [List.foldl_map, List.foldl_ext (g := fun a d => 10 * a + d)
      (H := by
        intro a d hd
        rw [List.mem_reverse, natDigitsRev_eq_digits n n le_rfl] at hd
        rw [digitChar_toNat (Nat.digits_lt_base (by norm_num) hd)]),
      natDigitsRev_eq_digits n n le_rfl, foldl_reverse_ofDigits, Nat.ofDigits_digits]
    simp

theorem takeWhile_append_of_all {p : Char → Bool} {l r : List Char}
    (h : ∀ x ∈ l, p x = true) : (l ++ r).takeWhile p = l ++ r.takeWhile p := by
  induction l with
  | nil => simp
  | cons c cs ih =>
    rw [List.cons_append, List.takeWhile_cons, if_pos (h c (List.mem_cons_self c cs)),
      ih fun x hx => h x (List.mem_cons_of_mem c hx)]
    rfl

theorem dropWhile_append_of_all {p : Char → Bool} {l r : List Char}
    (h : ∀ x ∈ l, p x = true) : (l ++ r).dropWhile p = r.dropWhile p := by
  induction l with
  | nil => simp
  | cons c cs ih =>
    rw [List.cons_append, List.dropWhile_cons, if_pos (h c (List.mem_cons_self c cs)),
      ih fun x hx => h x (List.mem_cons_of_mem c hx)]

/-- The value of a zero-padded digit list. -/
theorem digitsVal_padZeros (n : Nat) (cs : List Char) (h : ∀ c ∈ cs, c.isDigit = true) :
    digitsVal (padZeros n cs) = digitsVal cs := by
  unfold padZeros digitsVal
  have hall : ∀ c ∈ List.replicate (n - cs.length) '0' ++ cs, c.isDigit = true := by
    intro c hc
    rcases List.mem_append.mp hc with h0 | h0
    · rw [List.eq_of_mem_replicate h0]; decide
    · exact h c h0
  rw [digitsValAux_all_digits _ _ hall, digitsValAux_all_digits _ _ h, List.foldl_append]
  have hz : ∀ k : Nat, (List.replicate k '0').foldl (fun a c => 10 * a + (c.toNat - 48)) 0 = 0 := by
    intro k
    induction k with
    | zero => rfl
    | succ k ih => rw [List.replicate_succ, List.foldl_cons]; simpa using ih
  rw [hz]

/-- `natToStr m` has at most `d` characters when `m < 10 ^ d` and `0 < d`. -/
theorem natToStr_length_le {m d : Nat} (hd : 0 < d) (hm : m < 10 ^ d) :
    (natToStr m).data.length ≤ d := by
  unfold natToStr
  by_cases hz : m = 0
  · rw [if_pos hz]
    simpa using hd
  · rw [if_neg hz]
    simp only [String.data, List.length_map, List.length_reverse,
      natDigitsRev_eq_digits m m le_rfl]
    by_contra hlen
    push_neg at hlen
    have h1 : 10 ^ (Nat.digits 10 m).length ≤ 10 * m :=
      Nat.base_pow_length_digits_le 10 m (by norm_num) hz
    have h2 : 10 ^ (d + 1) ≤ 10 ^ (Nat.digits 10 m).length :=
      Nat.pow_le_pow_right (by norm_num) hlen
    have h3 : 10 * 10 ^ d ≤ 10 * m := by
      calc 10 * 10 ^ d = 10 ^ (d + 1) := by ring
      _ ≤ 10 ^ (Nat.digits 10 m).length := h2
      _ ≤ 10 * m := h1
    omega

/-- Length of the zero-padded fractional digit block. -/
theorem padZeros_length {m d : Nat} (hd : 0 < d) (hm : m < 10 ^ d) :
    (padZeros d (natToStr m).data).length = d := by
  unfold padZeros
  rw [List.length_append, List.length_replicate]
  have := natToStr_length_le hd hm
  omega

/-! ### Helper lemmas: rounding and the price formula -/

theorem roundHalfUp_intCast (m : ℤ) : roundHalfUp (m : ℚ) = m := by
  unfold roundHalfUp
  by_cases h : (0 : ℚ) ≤ (m : ℚ)
  · rw [if_pos h, Int.floor_int_add]
    norm_num
  · rw [if_neg h]
    have : -(m : ℚ) = ((-m : ℤ) : ℚ) := by push_cast; ring
    rw [this, Int.floor_int_add]
    norm_num

/-- Rounding to 20 decimal places is the identity on rationals already
representable with 20 decimal places. -/
theorem round20Q_eq_self {x : ℚ} (h : (x * 10 ^ 20).den = 1) : round20Q x = x := by
  unfold round20Q
  have hx : ((x * 10 ^ 20).num : ℚ) = x * 10 ^ 20 := (Rat.den_eq_one_iff _).mp h
  rw [← hx, roundHalfUp_intCast, hx]
  field_simp

/-- The spec's words for the normalized price (§4.1): exact rational
arithmetic, no rounding. -/
def priceFormulaSpec (priceNumerator priceDenominator : ℚ) (buyDecimals sellDecimals : Nat) :
    ℚ :=
  if buyDecimals ≥ sellDecimals then
    priceNumerator / (priceDenominator * 10 ^ (buyDecimals - sellDecimals))
  else priceNumerator * 10 ^ (sellDecimals - buyDecimals) / priceDenominator

/-- For a nonzero denominator the implemented price is the spec formula
rounded to 20 decimal places. -/
theorem calcPrice_eq_round (pn pd : ℚ) (bd sd : Nat) (h : pd ≠ 0) :
    calcPrice pn pd bd sd = .num (round20Q (priceFormulaSpec pn pd bd sd)) := by
  by_cases hbs : bd ≥ sd
  · have hne : pd * 10 ^ (bd - sd) ≠ 0 := mul_ne_zero h (by positivity)
    simp only [calcPrice, BigVal.dividedBy, priceFormulaSpec, if_pos hbs, if_neg hne]
  · simp only [calcPrice, BigVal.dividedBy, priceFormulaSpec, if_neg hbs, if_neg h]

/-! ### Helper lemmas: evaluating the pipeline on integer amounts -/

theorem bnFromBig_intCast (z : ℤ) (h : z.natAbs < 10 ^ 21) : bnFromBig (z : ℚ) = .ok z := by
  unfold bnFromBig
  rw [Rat.intCast_den, Rat.intCast_num]
  exact if_pos ⟨rfl, h⟩

theorem formatAmountPath_intCast (z : ℤ) (d : Nat) (h : z.natAbs < 10 ^ 21) :
    formatAmountPath (z : ℚ) d = formatAmountZ z d := by
  unfold formatAmountPath
  rw [bnFromBig_intCast z h]
  rfl

theorem formatAmountFullPath_intCast (z : ℤ) (d : Nat) (h : z.natAbs < 10 ^ 21) :
    formatAmountFullPath (z : ℚ) d = formatAmountFullZ z d := by
  unfold formatAmountFullPath
  rw [bnFromBig_intCast z h]
  rfl

theorem fillSafetyPath_int (z w : ℤ) (d : Nat) (hw : fillSafetyAmount (z : ℚ) = (w : ℚ))
    (h : w.natAbs < 10 ^ 21) : fillSafetyPath (z : ℚ) d = formatAmountFullZ w d := by
  unfold fillSafetyPath
  rw [hw, bnFromBig_intCast w h]
  rfl

theorem round20Q_intCast (z : ℤ) : round20Q (z : ℚ) = (z : ℚ) := by
  apply round20Q_eq_self
  have h : (z : ℚ) * 10 ^ 20 = ((z * 10 ^ 20 : ℤ) : ℚ) := by push_cast; ring
  rw [h, Rat.intCast_den]

theorem factorToFillOrder_eq : factorToFillOrder = 501 / 500 := by
  norm_num [factorToFillOrder, feeDenominator]

/-- Full evaluation of the pipeline on the spec's end-to-end example order:
the code's price is `2000` USDC per WETH. -/
theorem processOrder_example :
    processOrder exampleBaseUrl exampleCal exampleRel 500000 exampleOrder =
      .ok "Sell *1.0000* `WETH` for *2000.0000* `USDC`\n\n  - *Price*:  1 `WETH` = 2000 `USDC`\n  - *Expires*: `02/01/2020 GMT`, `in a month`\n\nFill the order here: https://app.example.org/trade/USDC-WETH?sell=2004.000000&buy=1.000000000000000000" := by
  have hsell : formatAmountPath ((1000000000000000000 : ℤ) : ℚ) 18 = .ok "1.0000" := by
    rw [formatAmountPath_intCast _ _ (by decide)]
    decide
  have hbuy : formatAmountPath ((2000000000 : ℤ) : ℚ) 6 = .ok "2000.0000" := by
    rw [formatAmountPath_intCast _ _ (by decide)]
    decide
  have hfillval : fillSafetyAmount ((2000000000 : ℤ) : ℚ) = ((2004000000 : ℤ) : ℚ) := by
    rw [fillSafetyAmount, factorToFillOrder_eq]
    norm_num
  have hfill : fillSafetyPath ((2000000000 : ℤ) : ℚ) 6 = .ok "2004.000000" := by
    rw [fillSafetyPath_int _ 2004000000 _ hfillval (by decide)]
    decide
  have hbuyfull : formatAmountFullPath ((1000000000000000000 : ℤ) : ℚ) 18 =
      .ok "1.000000000000000000" := by
    rw [formatAmountFullPath_intCast _ _ (by decide)]
    decide
  have hpricearg : ((2000000000 : ℤ) : ℚ) * 10 ^ (18 - 6) / ((1000000000000000000 : ℤ) : ℚ) =
      ((2000 : ℤ) : ℚ) := by
    push_cast
    norm_num
  have hprice : calcPrice ((2000000000 : ℤ) : ℚ) ((1000000000000000000 : ℤ) : ℚ) 6 18 =
      .num ((2000 : ℤ) : ℚ) := by
    have hb : ((1000000000000000000 : ℤ) : ℚ) ≠ 0 := by
      exact_mod_cast (by norm_num : (1000000000000000000 : ℤ) ≠ 0)
    rw [calcPrice_eq_round _ _ _ _ hb, priceFormulaSpec, if_neg (by norm_num : ¬6 ≥ 18),
      hpricearg, round20Q_intCast]
  have hpstr : bigToStr (.num ((2000 : ℤ) : ℚ)) = "2000" := by
    simp only [bigToStr]
    have h : ((2000 : ℤ) : ℚ) * 10 ^ 20 = ((200000000000000000000000 : ℤ) : ℚ) := by
      push_cast
      norm_num
    rw [h, Rat.intCast_num]
    decide
  simp only [processOrder, exampleOrder, wethToken, usdcToken, hsell, hbuy, hfill, hbuyfull,
    hprice, hpstr]
  rfl

/-- Full evaluation of the pipeline on the zero-denominator order: bignumber
division by zero yields `Infinity`, no error is raised, and the composed
message is delivered. -/
theorem processOrder_zeroDen :
    processOrder exampleBaseUrl exampleCal exampleRel 500000 zeroDenOrder =
      .ok "Sell *0.0000* `DAI` for *1.0000* `WETH`\n\n  - *Price*:  1 `DAI` = Infinity `WETH`\n  - *Expires*: `02/01/2020 GMT`, `in a month`\n\nFill the order here: https://app.example.org/trade/WETH-DAI?sell=1.002000000000000000&buy=0.000000000000000000" := by
  have hsell : formatAmountPath ((0 : ℤ) : ℚ) 18 = .ok "0.0000" := by
    rw [formatAmountPath_intCast _ _ (by decide)]
    decide
  have hbuy : formatAmountPath ((1000000000000000000 : ℤ) : ℚ) 18 = .ok "1.0000" := by
    rw [formatAmountPath_intCast _ _ (by decide)]
    decide
  have hfillval : fillSafetyAmount ((1000000000000000000 : ℤ) : ℚ) =
      ((1002000000000000000 : ℤ) : ℚ) := by
    rw [fillSafetyAmount, factorToFillOrder_eq]
    norm_num
  have hfill : fillSafetyPath ((1000000000000000000 : ℤ) : ℚ) 18 =
      .ok "1.002000000000000000" := by
    rw [fillSafetyPath_int _ 1002000000000000000 _ hfillval (by decide)]
    decide
  have hbuyfull : formatAmountFullPath ((0 : ℤ) : ℚ) 18 = .ok "0.000000000000000000" := by
    rw [formatAmountFullPath_intCast _ _ (by decide)]
    decide
  have hprice : calcPrice ((1000000000000000000 : ℤ) : ℚ) ((0 : ℤ) : ℚ) 18 18 =
      .posInf := by
    have hb0 : ((0 : ℤ) : ℚ) * 10 ^ (18 - 18) = 0 := by
      push_cast
      ring
    have hapos : 0 < ((1000000000000000000 : ℤ) : ℚ) := by
      exact_mod_cast (by norm_num : (0 : ℤ) < 1000000000000000000)
    simp only [calcPrice, BigVal.dividedBy, if_pos (by norm_num : 18 ≥ 18), if_pos hb0,
      if_neg (by exact ne_of_gt hapos : ¬((1000000000000000000 : ℤ) : ℚ) = 0), if_pos hapos]
  simp only [processOrder, zeroDenOrder, wethToken, daiToken, hsell, hbuy, hfill, hbuyfull,
    hprice]
  rfl

/-! ### Helper lemmas: decimal raw amounts and the fill factor -/

/-- A finite-decimal rational whose product with `FACTOR_TO_FILL_ORDER` is an
integer is itself an integer: `501/500` is coprime to every power of ten. -/
theorem den_eq_one_of_fill_den_eq_one {a : ℚ} {k : ℤ} {m : Nat}
    (hdec : a = (k : ℚ) / 10 ^ m) (hfill : (fillSafetyAmount a).den = 1) : a.den = 1 := by
  have h1 : ((fillSafetyAmount a).num : ℚ) = fillSafetyAmount a :=
    (Rat.den_eq_one_iff _).mp hfill
  have h2 : fillSafetyAmount a = a * (501 / 500) := by
    rw [fillSafetyAmount, factorToFillOrder_eq]
  have ha : a = (((fillSafetyAmount a).num * 500 : ℤ) : ℚ) / ((501 : ℤ) : ℚ) := by
    push_cast
    rw [h1, h2]
    ring
  have hd501 : a.den ∣ 501 := by
    have h := Rat.den_dvd ((fillSafetyAmount a).num * 500) 501
    rw [Rat.divInt_eq_div, ← ha] at h
    exact Int.natCast_dvd_natCast.mp (Int.dvd_natAbs.mpr h)
  have hd10 : a.den ∣ 10 ^ m := by
    have h := Rat.den_dvd k (10 ^ m)
    rw [Rat.divInt_eq_div] at h
    have hk : (k : ℚ) / ((10 ^ m : ℤ) : ℚ) = a := by
      rw [hdec]
      push_cast
      ring
    rw [hk] at h
    have := Int.natCast_dvd_natCast.mp (Int.dvd_natAbs.mpr h)
    simpa [Int.natAbs_pow] using this
  have hco : Nat.Coprime (10 ^ m) 501 :=
    ((by decide : Nat.Coprime 501 10).pow_right m).symm
  exact Nat.dvd_one.mp (hco ▸ Nat.dvd_gcd hd10 hd501)

/-- On a negative or non-integer bignumber.js amount, the BN conversion
either fails outright or hands a negative integer to the formatter. -/
theorem bnFromBig_bad {q : ℚ} (hbad : q < 0 ∨ q.den ≠ 1) :
    bnFromBig q = .error .invalidOrderData ∨ (bnFromBig q = .ok q.num ∧ q.num < 0) := by
  unfold bnFromBig
  by_cases hc : q.den = 1 ∧ q.num.natAbs < 10 ^ 21
  · right
    refine ⟨if_pos hc, ?_⟩
    rcases hbad with h | h
    · exact Rat.num_neg.mpr h
    · exact absurd hc.1 h
  · left
    exact if_neg hc

/-- Both checked formatting paths fail on a negative or non-integer raw
amount. -/
theorem formatPaths_fail_of_bad {q : ℚ} (d : Nat) (hq : q < 0 ∨ q.den ≠ 1) :
    formatAmountPath q d = .error .invalidOrderData ∧
      formatAmountFullPath q d = .error .invalidOrderData := by
  rcases bnFromBig_bad hq with h | ⟨h, hneg⟩
  · unfold formatAmountPath formatAmountFullPath
    rw [h]
    exact ⟨rfl, rfl⟩
  · unfold formatAmountPath formatAmountFullPath
    rw [h]
    constructor
    · show formatAmountZ q.num d = _
      rw [formatAmountZ, if_pos hneg]
    · show formatAmountFullZ q.num d = _
      rw [formatAmountFullZ, if_pos hneg]

theorem natToStr_not_dot (n : Nat) :
    ∀ c ∈ (natToStr n).data, (decide (c ≠ '.')) = true := by
  intro c hc
  simpa using digit_char_ne_dot (natToStr_mem_isDigit n c hc)

/-- C8, body: parsing the full-precision format and rescaling by
`10 ^ decimals` recovers the raw integer. -/
theorem parseDecimal_formatAmountFull (a d : Nat) :
    ∃ q : ℚ, parseDecimal (formatAmountFull a d) = some q ∧ q * 10 ^ d = (a : ℚ) := by
  by_cases hd : d = 0
  · subst hd
    refine ⟨(a : ℚ), ?_, by rw [pow_zero, mul_one]⟩
    unfold formatAmountFull
    rw [if_pos rfl]
    simp only [parseDecimal]
    rw [List.takeWhile_eq_self_iff.mpr (natToStr_not_dot a),
      List.dropWhile_eq_nil_iff.mpr (natToStr_not_dot a), digitsVal_natToStr a]
    rfl
  · have hd0 : 0 < d := Nat.pos_of_ne_zero hd
    have hpow : 0 < 10 ^ d := Nat.pos_pow_of_pos d (by norm_num)
    have hmod : a % 10 ^ d < 10 ^ d := Nat.mod_lt a hpow
    refine ⟨((a / 10 ^ d : Nat) : ℚ) + ((a % 10 ^ d : Nat) : ℚ) / 10 ^ d, ?_, ?_⟩
    · unfold formatAmountFull
      rw [if_neg hd]
      simp only [parseDecimal]
      have hdata : (natToStr (a / 10 ^ d) ++ "." ++
          (⟨padZeros d (natToStr (a % 10 ^ d)).data⟩ : String)).data =
          (natToStr (a / 10 ^ d)).data ++ '.' :: padZeros d (natToStr (a % 10 ^ d)).data := by
        rw [String.data_append, String.data_append, List.append_assoc]
        rfl
      rw [hdata, takeWhile_append_of_all (natToStr_not_dot _),
        dropWhile_append_of_all (natToStr_not_dot _), List.takeWhile_cons,
        List.dropWhile_cons]
      norm_num
      rw [digitsVal_natToStr, digitsVal_padZeros _ _ (natToStr_mem_isDigit _),
        digitsVal_natToStr, padZeros_length hd0 hmod]
    · have hcast : (10 : ℚ) ^ d * ((a / 10 ^ d : Nat) : ℚ) + ((a % 10 ^ d : Nat) : ℚ) =
          (a : ℚ) := by
        have := congrArg (Nat.cast (R := ℚ)) (Nat.div_add_mod a (10 ^ d))
        push_cast at this
        exact this
      have h10 : ((10 : ℚ) ^ d) ≠ 0 := by positivity
      rw [add_mul, div_mul_cancel₀ _ h10]
      linarith [hcast]

/-! ### Helper lemmas: message structure -/

theorem infix_extend_right {p l : List Char} (r : List Char) (h : p <:+: l) : p <:+: l ++ r :=
  h.trans ⟨[], r, by simp⟩

theorem not_prefix_of_take_ne {p lit : List Char} (r : List Char) (hlen : p.length ≤ lit.length)
    (hne : p ≠ lit.take p.length) : ¬p <+: lit ++ r := by
  intro h
  have heq := List.prefix_iff_eq_take.mp h
  rw [List.take_append_of_le_length hlen] at heq
  exact hne heq

theorem bind_ok_eq {α β : Type} (x : Except FormatError α) (f : α → Except FormatError β)
    (b : β) : (x >>= f) = .ok b ↔ ∃ a, x = .ok a ∧ f a = .ok b := by
  cases x with
  | ok a =>
    constructor
    · intro h
      exact ⟨a, rfl, h⟩
    · rintro ⟨a', ha, hf⟩
      injection ha with ha'
      rw [← ha'] at hf
      exact hf
  | error e =>
    constructor
    · intro h
      exact absurd h (by intro hc; cases hc)
    · rintro ⟨a', ha, _⟩
      cases ha

/-- Inversion of a successful pipeline run: the delivered message is the
composed template over the order's labels, price string and window
description. -/
theorem processOrder_ok {base : String} {cal rel : Int → String} {now : Int} {o : Order}
    {m : String} (h : processOrder base cal rel now o = .ok m) :
    ∃ sa ba fs bf : String,
      m = composeMessage sa (tokenLabel o.sellToken) ba (tokenLabel o.buyToken)
        (bigToStr (calcPrice o.priceNumerator o.priceDenominator o.buyToken.decimals
          o.sellToken.decimals))
        (datesDescription o.validFrom now (cal o.validFrom) (rel o.validFrom) (cal o.validUntil)
          (rel o.validUntil)) base fs bf := by
  simp only [processOrder] at h
  rw [bind_ok_eq] at h
  obtain ⟨sa, hsa, h⟩ := h
  rw [bind_ok_eq] at h
  obtain ⟨ba, hba, h⟩ := h
  rw [bind_ok_eq] at h
  obtain ⟨fs, hfs, h⟩ := h
  rw [bind_ok_eq] at h
  obtain ⟨bf, hbf, h⟩ := h
  have h10 : composeMessage sa (tokenLabel o.sellToken) ba (tokenLabel o.buyToken)
      (bigToStr (calcPrice o.priceNumerator o.priceDenominator o.buyToken.decimals
        o.sellToken.decimals))
      (datesDescription o.validFrom now (cal o.validFrom) (rel o.validFrom) (cal o.validUntil)
        (rel o.validUntil)) base fs bf = m := by
    injection h
  exact ⟨sa, ba, fs, bf, h10.symm⟩

/-- The message template, regrouped around its four structural parts. -/
theorem composeMessage_decomp (sa sl ba bl pr dd base fs bf : String) :
    composeMessage sa sl ba bl pr dd base fs bf =
      ("Sell *" ++ sa ++ "* `" ++ sl ++ "` for *" ++ ba ++ "* `" ++ bl ++ "`") ++
        ("\n\n  - *Price*:  " ++
          (("1 `" ++ sl ++ "` = " ++ pr ++ " `" ++ bl ++ "`") ++
            ("\n" ++ dd ++ "\n\nFill the order here: " ++
              (base ++ "/trade/" ++ bl ++ "-" ++ sl ++ "?sell=" ++ fs ++ "&buy=" ++ bf)))) := by
  unfold composeMessage
  rw [show ("`\n\n  - *Price*:  1 `" : String) = "`" ++ "\n\n  - *Price*:  " ++ "1 `" from rfl,
    show ("`\n" : String) = "`" ++ "\n" from rfl]
  simp only [String.append_assoc]

/-- The four structural parts of the claim: headline prefix, price-line
infix, window-description infix, deep-link suffix. -/
theorem composeMessage_parts (sa sl ba bl pr dd base fs bf : String) :
    ("Sell *" ++ sa ++ "* `" ++ sl ++ "` for *" ++ ba ++ "* `" ++ bl ++ "`").data <+:
        (composeMessage sa sl ba bl pr dd base fs bf).data ∧
      ("1 `" ++ sl ++ "` = " ++ pr ++ " `" ++ bl ++ "`").data <:+:
        (composeMessage sa sl ba bl pr dd base fs bf).data ∧
      dd.data <:+: (composeMessage sa sl ba bl pr dd base fs bf).data ∧
      (base ++ "/trade/" ++ bl ++ "-" ++ sl ++ "?sell=" ++ fs ++ "&buy=" ++ bf).data <:+
        (composeMessage sa sl ba bl pr dd base fs bf).data := by
  rw [composeMessage_decomp]
  refine ⟨?_, ?_, ?_, ?_⟩
  · rw [String.data_append]
    exact List.prefix_append _ _
  · refine ⟨(("Sell *" ++ sa ++ "* `" ++ sl ++ "` for *" ++ ba ++ "* `" ++ bl ++ "`") ++
      "\n\n  - *Price*:  ").data,
      ("\n" ++ dd ++ "\n\nFill the order here: " ++
        (base ++ "/trade/" ++ bl ++ "-" ++ sl ++ "?sell=" ++ fs ++ "&buy=" ++ bf)).data, ?_⟩
    simp only [String.data_append, List.append_assoc]
  · refine ⟨(("Sell *" ++ sa ++ "* `" ++ sl ++ "` for *" ++ ba ++ "* `" ++ bl ++ "`") ++
      "\n\n  - *Price*:  " ++ ("1 `" ++ sl ++ "` = " ++ pr ++ " `" ++ bl ++ "`") ++ "\n").data,
      ("\n\nFill the order here: " ++
        (base ++ "/trade/" ++ bl ++ "-" ++ sl ++ "?sell=" ++ fs ++ "&buy=" ++ bf)).data, ?_⟩
    simp only [String.data_append, List.append_assoc]
  · refine ⟨(("Sell *" ++ sa ++ "* `" ++ sl ++ "` for *" ++ ba ++ "* `" ++ bl ++ "`") ++
      "\n\n  - *Price*:  " ++ ("1 `" ++ sl ++ "` = " ++ pr ++ " `" ++ bl ++ "`") ++ "\n" ++ dd ++
      "\n\nFill the order here: ").data, ?_⟩
    simp only [String.data_append, List.append_assoc]

theorem isEmpty_eq_decide (s : String) : s.isEmpty = decide (s = "") := by
  by_cases h : s = ""
  · subst h
    rfl
  · rw [decide_eq_false h, Bool.eq_false_iff]
    intro hc
    exact h ((String.isEmpty_iff _).mp hc)

/-- The display-label fallback of the source agrees with the spec's
"first non-empty of symbol, name, address". -/
theorem tokenLabel_eq_labelSpec (t : Token) : tokenLabel t = labelSpec t := by
  obtain ⟨addr, sym, nam, dcm⟩ := t
  unfold tokenLabel labelSpec orElseStr
  rcases sym with _ | s
  · rcases nam with _ | n
    · by_cases ha : addr = "" <;>
        simp [List.filter_cons, isEmpty_eq_decide, ha]
    · by_cases hn : n = "" <;> by_cases ha : addr = "" <;>
        simp [List.filter_cons, isEmpty_eq_decide, hn, ha]
  · rcases nam with _ | n
    · by_cases hs : s = "" <;> by_cases ha : addr = "" <;>
        simp [List.filter_cons, isEmpty_eq_decide, hs, ha]
    · by_cases hs : s = "" <;> by_cases hn : n = "" <;> by_cases ha : addr = "" <;>
        simp [List.filter_cons, isEmpty_eq_decide, hs, hn, ha]

/-! ### Helper lemmas: trade-window description -/

theorem datesDescription_eq_intercalate (vf now : Int) (cf rf cu ru : String) :
    datesDescription vf now cf rf cu ru =
      String.intercalate "\n" (descLines vf now cf rf cu ru) := by
  unfold datesDescription descLines tradableLine expiresLine
  by_cases hc : now < vf
  · rw [if_pos hc, if_pos hc]
    rw [show ("`\n" : String) = "`" ++ "\n" from rfl]
    simp only [List.cons_append, List.nil_append]
    simp only [String.intercalate, String.intercalate.go]
    simp only [String.append_assoc]
  · rw [if_neg hc, if_neg hc]
    simp only [List.nil_append]
    simp only [String.intercalate, String.intercalate.go]
    simp

/-- Exactly one line of the window description starts with the
`"  - *Expires*"` marker. -/
theorem descLines_expires_count (vf now : Int) (cf rf cu ru : String) :
    (descLines vf now cf rf cu ru).countP
      (fun l => "  - *Expires*".data.isPrefixOf l.data) = 1 := by
  have hE : "  - *Expires*".data.isPrefixOf (expiresLine cu ru).data = true := by
    apply List.isPrefixOf_iff_prefix.mpr
    unfold expiresLine
    simp only [String.data_append, List.append_assoc]
    exact (by decide : "  - *Expires*".data <+: "  - *Expires*: `".data).trans
      (List.prefix_append _ _)
  unfold descLines
  by_cases hc : now < vf
  · rw [if_pos hc]
    have hT : "  - *Expires*".data.isPrefixOf
        ("  - *Tradable*: `" ++ cf ++ " GMT`, `" ++ rf ++ "`").data = false := by
      rw [Bool.eq_false_iff]
      intro hcontra
      have hpre := List.isPrefixOf_iff_prefix.mp hcontra
      simp only [String.data_append, List.append_assoc] at hpre
      exact not_prefix_of_take_ne _ (by decide) (by decide) hpre
    simp only [List.cons_append, List.nil_append, List.countP_cons, List.countP_nil, hT, hE]
    rfl
  · rw [if_neg hc]
    simp only [List.nil_append, List.countP_cons, List.countP_nil, hE]
    rfl

/-- Helper: the code's price at the spec's example order is exactly 2000. -/
theorem calcPrice_example :
    calcPrice ((2000000000 : ℤ) : ℚ) ((1000000000000000000 : ℤ) : ℚ) 6 18 =
      .num ((2000 : ℤ) : ℚ) := by
  have hb : ((1000000000000000000 : ℤ) : ℚ) ≠ 0 := by
    exact_mod_cast (by norm_num : (1000000000000000000 : ℤ) ≠ 0)
  rw [calcPrice_eq_round _ _ _ _ hb, priceFormulaSpec, if_neg (by norm_num : ¬6 ≥ 18)]
  have harg : ((2000000000 : ℤ) : ℚ) * 10 ^ (18 - 6) / ((1000000000000000000 : ℤ) : ℚ) =
      ((2000 : ℤ) : ℚ) := by
    push_cast
    norm_num
  rw [harg, round20Q_intCast]

/-! ## The claims -/

/-- C1: the claim says a zero `priceDenominator` fails with `InvalidOrderData`
and the notification sink is not called.  The code does neither: bignumber.js
division by zero yields `Infinity`, the message is composed with the string
`Infinity` in its price line, and it is handed to the sink.  Evaluated at the
zero-denominator order: the sink receives exactly one message and that
message contains `Infinity`. -/
theorem claim_C1_zeroDen_sends_infinity :
    sentMessages (processOrder exampleBaseUrl exampleCal exampleRel 500000 zeroDenOrder) =
      ["Sell *0.0000* `DAI` for *1.0000* `WETH`\n\n  - *Price*:  1 `DAI` = Infinity `WETH`\n  - *Expires*: `02/01/2020 GMT`, `in a month`\n\nFill the order here: https://app.example.org/trade/WETH-DAI?sell=1.002000000000000000&buy=0.000000000000000000"] ∧
      "Infinity".data <:+:
        ("Sell *0.0000* `DAI` for *1.0000* `WETH`\n\n  - *Price*:  1 `DAI` = Infinity `WETH`\n  - *Expires*: `02/01/2020 GMT`, `in a month`\n\nFill the order here: https://app.example.org/trade/WETH-DAI?sell=1.002000000000000000&buy=0.000000000000000000" : String).data := by
  constructor
  · rw [processOrder_zeroDen]
    rfl
  · decide

/-- C2, counterexample: at the spec's end-to-end example order the claim
fails — the message does not contain `1 \`WETH\` = 2 \`USDC\`` (the price
line reads `= 2000`), and the normalized price is not
`priceNumerator / (priceDenominator * 10^12)` (which would be `2e-21`). -/
theorem claim_C2_counterexample :
    processOrder exampleBaseUrl exampleCal exampleRel 500000 exampleOrder =
      .ok "Sell *1.0000* `WETH` for *2000.0000* `USDC`\n\n  - *Price*:  1 `WETH` = 2000 `USDC`\n  - *Expires*: `02/01/2020 GMT`, `in a month`\n\nFill the order here: https://app.example.org/trade/USDC-WETH?sell=2004.000000&buy=1.000000000000000000" ∧
      ¬("1 `WETH` = 2 `USDC`".data <:+:
        ("Sell *1.0000* `WETH` for *2000.0000* `USDC`\n\n  - *Price*:  1 `WETH` = 2000 `USDC`\n  - *Expires*: `02/01/2020 GMT`, `in a month`\n\nFill the order here: https://app.example.org/trade/USDC-WETH?sell=2004.000000&buy=1.000000000000000000" : String).data) ∧
      calcPrice ((2000000000 : ℤ) : ℚ) ((1000000000000000000 : ℤ) : ℚ) 6 18 ≠
        .num (((2000000000 : ℤ) : ℚ) / (((1000000000000000000 : ℤ) : ℚ) * 10 ^ 12)) := by
  refine ⟨processOrder_example, by decide, ?_⟩
  rw [calcPrice_example]
  intro h
  injection h with h'
  push_cast at h'
  norm_num at h'

/-- C2, amended: at the spec's end-to-end example order the normalized price
is `priceNumerator * 10^12 / priceDenominator = 2000` USDC per WETH (the
sell token has the larger decimals count, so the other branch of the price
formula applies); the message contains `Sell` and `1 \`WETH\` = 2000
\`USDC\`` and omits the `Tradable` line. -/
theorem claim_C2_amended :
    ∃ m : String,
      processOrder exampleBaseUrl exampleCal exampleRel 500000 exampleOrder = .ok m ∧
      "Sell".data <+: m.data ∧
      ("1 `WETH` = 2000 `USDC`".data <:+: m.data) ∧
      ¬("Tradable".data <:+: m.data) ∧
      calcPrice ((2000000000 : ℤ) : ℚ) ((1000000000000000000 : ℤ) : ℚ) 6 18 =
        .num (((2000000000 : ℤ) : ℚ) * 10 ^ 12 / ((1000000000000000000 : ℤ) : ℚ)) := by
  refine ⟨_, processOrder_example, by decide, by decide, by decide, ?_⟩
  rw [calcPrice_example]
  congr 1
  push_cast
  norm_num

/-- C3, counterexample: with equal decimals and `priceNumerator = 1`,
`priceDenominator = 3`, the code's price is the 20-decimal-place rounding of
`1/3`, not `1/3` exactly (bignumber.js `DECIMAL_PLACES = 20`). -/
theorem claim_C3_counterexample :
    calcPrice ((1 : ℤ) : ℚ) ((3 : ℤ) : ℚ) 6 6 ≠ .num (((1 : ℤ) : ℚ) / ((3 : ℤ) : ℚ)) := by
  have hb : ((3 : ℤ) : ℚ) ≠ 0 := by norm_num
  rw [calcPrice_eq_round _ _ _ _ hb, priceFormulaSpec, if_pos (by norm_num : 6 ≥ 6)]
  have harg : ((1 : ℤ) : ℚ) / (((3 : ℤ) : ℚ) * 10 ^ (6 - 6)) = 1 / 3 := by
    push_cast
    norm_num
  rw [harg]
  intro h
  injection h with h'
  unfold round20Q at h'
  have hfloor : roundHalfUp ((1 / 3 : ℚ) * 10 ^ 20) = 33333333333333333333 := by
    unfold roundHalfUp
    rw [if_pos (by norm_num), Int.floor_eq_iff]
    constructor <;> norm_num
  rw [hfloor] at h'
  push_cast at h'
  norm_num at h'

/-- C3, amended: for every order with positive denominator the normalized
price is the spec's conditional formula rounded half-up to 20 decimal places
(the bignumber.js default division precision); whenever the exact formula
value is representable with 20 decimal places — in particular whenever the
ratio terminates, e.g. powers of ten — the price equals it exactly. -/
theorem claim_C3_amended (pn pd : ℚ) (bd sd : Nat) (h : 0 < pd) :
    calcPrice pn pd bd sd = .num (round20Q (priceFormulaSpec pn pd bd sd)) ∧
      ((priceFormulaSpec pn pd bd sd * 10 ^ 20).den = 1 →
        calcPrice pn pd bd sd = .num (priceFormulaSpec pn pd bd sd)) := by
  refine ⟨calcPrice_eq_round pn pd bd sd (ne_of_gt h), fun hd => ?_⟩
  rw [calcPrice_eq_round pn pd bd sd (ne_of_gt h), round20Q_eq_self hd]

/-- C3, witness at `priceNumerator = 1`, `priceDenominator = 4`, equal
decimals: the price is exactly `1/4`. -/
theorem claim_C3_witness :
    (0 : ℚ) < 4 ∧
      (calcPrice 1 4 0 0 = .num (round20Q (priceFormulaSpec 1 4 0 0)) ∧
        ((priceFormulaSpec 1 4 0 0 * 10 ^ 20).den = 1 →
          calcPrice 1 4 0 0 = .num (priceFormulaSpec 1 4 0 0))) :=
  ⟨by norm_num, claim_C3_amended 1 4 0 0 (by norm_num)⟩

/-- C4, counterexample: at `priceNumerator = 0` (a non-negative value) the
fill-safety amount is `0`: it is not strictly greater than the raw amount,
and the ratio is `0/0 = 0`, not `1 + 2/FEE_DENOMINATOR`. -/
theorem claim_C4_counterexample :
    ¬(fillSafetyAmount 0 / 0 = 1 + 2 / feeDenominator ∧ (0 : ℚ) < fillSafetyAmount 0) := by
  rintro ⟨h1, h2⟩
  rw [fillSafetyAmount, zero_mul] at h2
  exact lt_irrefl 0 h2

/-- C4, amended: for every order with positive `priceNumerator` the
fill-safety amount satisfies `fillAmount / priceNumerator =
1 + 2/FEE_DENOMINATOR` exactly and is strictly greater than the raw
amount. -/
theorem claim_C4_amended (pn : ℚ) (h : 0 < pn) :
    fillSafetyAmount pn / pn = 1 + 2 / feeDenominator ∧ pn < fillSafetyAmount pn := by
  constructor
  · rw [fillSafetyAmount, mul_comm, mul_div_assoc, div_self (ne_of_gt h), mul_one,
      factorToFillOrder]
  · rw [fillSafetyAmount, factorToFillOrder_eq]
    nlinarith

/-- C4, witness at `priceNumerator = 500`. -/
theorem claim_C4_witness :
    fillSafetyAmount 500 / 500 = 1 + 2 / feeDenominator ∧ (500 : ℚ) < fillSafetyAmount 500 :=
  claim_C4_amended 500 (by norm_num)

/-- C5: the trade-window description contains `Tradable` exactly when
`validFrom > now` (given that the moment.js date renderings of the expires
line do not themselves spell `Tradable`); the description is the
newline-joining of its lines, and exactly one line carries the
`  - *Expires*` marker. -/
theorem claim_C5_tradable_iff (validFrom now : Int) (calFrom relFrom calUntil relUntil : String)
    (h1 : ¬"Tradable".data <:+: (expiresLine calUntil relUntil).data) :
    ("Tradable".data <:+:
        (datesDescription validFrom now calFrom relFrom calUntil relUntil).data ↔
        now < validFrom) ∧
      datesDescription validFrom now calFrom relFrom calUntil relUntil =
        String.intercalate "\n" (descLines validFrom now calFrom relFrom calUntil relUntil) ∧
      (descLines validFrom now calFrom relFrom calUntil relUntil).countP
        (fun l => "  - *Expires*".data.isPrefixOf l.data) = 1 := by
  refine ⟨?_, datesDescription_eq_intercalate validFrom now calFrom relFrom calUntil relUntil,
    descLines_expires_count validFrom now calFrom relFrom calUntil relUntil⟩
  by_cases hc : now < validFrom
  · refine iff_of_true ?_ hc
    simp only [datesDescription, if_pos hc, tradableLine, String.data_append,
      List.append_assoc]
    exact infix_extend_right _ (by decide : "Tradable".data <:+: "  - *Tradable*: `".data)
  · refine iff_of_false ?_ hc
    simp only [datesDescription, if_neg hc, String.data_append]
    simpa using h1

/-- C5, witness: a future `validFrom` with concrete date renderings. -/
theorem claim_C5_witness :
    (¬"Tradable".data <:+: (expiresLine "02/01/2020" "in a month").data) ∧
      (("Tradable".data <:+:
          (datesDescription 1000 0 "01/01/2020" "a day ago" "02/01/2020" "in a month").data ↔
          (0 : Int) < 1000) ∧
        datesDescription 1000 0 "01/01/2020" "a day ago" "02/01/2020" "in a month" =
          String.intercalate "\n"
            (descLines 1000 0 "01/01/2020" "a day ago" "02/01/2020" "in a month") ∧
        (descLines 1000 0 "01/01/2020" "a day ago" "02/01/2020" "in a month").countP
          (fun l => "  - *Expires*".data.isPrefixOf l.data) = 1) :=
  ⟨by decide, claim_C5_tradable_iff 1000 0 "01/01/2020" "a day ago" "02/01/2020" "in a month"
    (by decide)⟩

/-- C6: every successfully processed order is announced with the fixed
markdown template — headline prefix `Sell X \`SELL\` for Y \`BUY\``, a price
line `1 \`SELL\` = price \`BUY\``, the trade-window description, and the
trailing deep link `<base>/trade/<buyLabel>-<sellLabel>?sell=..&buy=..` —
where each label is symbol, else name, else address. -/
theorem claim_C6_message_shape (baseUrl : String) (calFn relFn : Int → String) (now : Int)
    (o : Order) (m : String) (h : processOrder baseUrl calFn relFn now o = .ok m) :
    (∃ sellAmountFmt buyAmountFmt fillSellFmt buyFullFmt : String,
      m = composeMessage sellAmountFmt (tokenLabel o.sellToken) buyAmountFmt
          (tokenLabel o.buyToken)
          (bigToStr (calcPrice o.priceNumerator o.priceDenominator o.buyToken.decimals
            o.sellToken.decimals))
          (datesDescription o.validFrom now (calFn o.validFrom) (relFn o.validFrom)
            (calFn o.validUntil) (relFn o.validUntil)) baseUrl fillSellFmt buyFullFmt ∧
        ("Sell *" ++ sellAmountFmt ++ "* `" ++ tokenLabel o.sellToken ++ "` for *" ++
          buyAmountFmt ++ "* `" ++ tokenLabel o.buyToken ++ "`").data <+: m.data ∧
        ("1 `" ++ tokenLabel o.sellToken ++ "` = " ++
          bigToStr (calcPrice o.priceNumerator o.priceDenominator o.buyToken.decimals
            o.sellToken.decimals) ++ " `" ++ tokenLabel o.buyToken ++ "`").data <:+: m.data ∧
        (datesDescription o.validFrom now (calFn o.validFrom) (relFn o.validFrom)
          (calFn o.validUntil) (relFn o.validUntil)).data <:+: m.data ∧
        (baseUrl ++ "/trade/" ++ tokenLabel o.buyToken ++ "-" ++ tokenLabel o.sellToken ++
          "?sell=" ++ fillSellFmt ++ "&buy=" ++ buyFullFmt).data <:+ m.data) ∧
      ∀ t : Token, tokenLabel t = labelSpec t := by
  obtain ⟨sa, ba, fs, bf, hm⟩ := processOrder_ok h
  subst hm
  obtain ⟨h1, h2, h3, h4⟩ := composeMessage_parts sa (tokenLabel o.sellToken) ba
    (tokenLabel o.buyToken)
    (bigToStr (calcPrice o.priceNumerator o.priceDenominator o.buyToken.decimals
      o.sellToken.decimals))
    (datesDescription o.validFrom now (calFn o.validFrom) (relFn o.validFrom)
      (calFn o.validUntil) (relFn o.validUntil)) baseUrl fs bf
  exact ⟨⟨sa, ba, fs, bf, rfl, h1, h2, h3, h4⟩, tokenLabel_eq_labelSpec⟩

/-- C6, witness: the example order's announcement instantiates the template
shape. -/
theorem claim_C6_witness :
    (∃ sellAmountFmt buyAmountFmt fillSellFmt buyFullFmt : String,
      "Sell *1.0000* `WETH` for *2000.0000* `USDC`\n\n  - *Price*:  1 `WETH` = 2000 `USDC`\n  - *Expires*: `02/01/2020 GMT`, `in a month`\n\nFill the order here: https://app.example.org/trade/USDC-WETH?sell=2004.000000&buy=1.000000000000000000" =
          composeMessage sellAmountFmt (tokenLabel exampleOrder.sellToken) buyAmountFmt
          (tokenLabel exampleOrder.buyToken)
          (bigToStr (calcPrice exampleOrder.priceNumerator exampleOrder.priceDenominator
            exampleOrder.buyToken.decimals exampleOrder.sellToken.decimals))
          (datesDescription exampleOrder.validFrom 500000 (exampleCal exampleOrder.validFrom)
            (exampleRel exampleOrder.validFrom) (exampleCal exampleOrder.validUntil)
            (exampleRel exampleOrder.validUntil)) exampleBaseUrl fillSellFmt buyFullFmt ∧
        ("Sell *" ++ sellAmountFmt ++ "* `" ++ tokenLabel exampleOrder.sellToken ++ "` for *" ++
          buyAmountFmt ++ "* `" ++ tokenLabel exampleOrder.buyToken ++ "`").data <+:
          ("Sell *1.0000* `WETH` for *2000.0000* `USDC`\n\n  - *Price*:  1 `WETH` = 2000 `USDC`\n  - *Expires*: `02/01/2020 GMT`, `in a month`\n\nFill the order here: https://app.example.org/trade/USDC-WETH?sell=2004.000000&buy=1.000000000000000000" : String).data ∧
        ("1 `" ++ tokenLabel exampleOrder.sellToken ++ "` = " ++
          bigToStr (calcPrice exampleOrder.priceNumerator exampleOrder.priceDenominator
            exampleOrder.buyToken.decimals exampleOrder.sellToken.decimals) ++ " `" ++
          tokenLabel exampleOrder.buyToken ++ "`").data <:+:
          ("Sell *1.0000* `WETH` for *2000.0000* `USDC`\n\n  - *Price*:  1 `WETH` = 2000 `USDC`\n  - *Expires*: `02/01/2020 GMT`, `in a month`\n\nFill the order here: https://app.example.org/trade/USDC-WETH?sell=2004.000000&buy=1.000000000000000000" : String).data ∧
        (datesDescription exampleOrder.validFrom 500000 (exampleCal exampleOrder.validFrom)
          (exampleRel exampleOrder.validFrom) (exampleCal exampleOrder.validUntil)
          (exampleRel exampleOrder.validUntil)).data <:+:
          ("Sell *1.0000* `WETH` for *2000.0000* `USDC`\n\n  - *Price*:  1 `WETH` = 2000 `USDC`\n  - *Expires*: `02/01/2020 GMT`, `in a month`\n\nFill the order here: https://app.example.org/trade/USDC-WETH?sell=2004.000000&buy=1.000000000000000000" : String).data ∧
        (exampleBaseUrl ++ "/trade/" ++ tokenLabel exampleOrder.buyToken ++ "-" ++
          tokenLabel exampleOrder.sellToken ++ "?sell=" ++ fillSellFmt ++ "&buy=" ++
          buyFullFmt).data <:+
          ("Sell *1.0000* `WETH` for *2000.0000* `USDC`\n\n  - *Price*:  1 `WETH` = 2000 `USDC`\n  - *Expires*: `02/01/2020 GMT`, `in a month`\n\nFill the order here: https://app.example.org/trade/USDC-WETH?sell=2004.000000&buy=1.000000000000000000" : String).data) ∧
      ∀ t : Token, tokenLabel t = labelSpec t :=
  claim_C6_message_shape exampleBaseUrl exampleCal exampleRel 500000 exampleOrder
    "Sell *1.0000* `WETH` for *2000.0000* `USDC`\n\n  - *Price*:  1 `WETH` = 2000 `USDC`\n  - *Expires*: `02/01/2020 GMT`, `in a month`\n\nFill the order here: https://app.example.org/trade/USDC-WETH?sell=2004.000000&buy=1.000000000000000000"
    processOrder_example

/-- C7: on a finite-decimal raw amount that is negative or not an integer,
the display path, the full-precision path and the fill-safety path of the
pipeline all fail with `InvalidOrderData`. -/
theorem claim_C7_bad_amounts_fail (a : ℚ) (d : Nat) (k : ℤ) (m : Nat)
    (hdec : a = (k : ℚ) / 10 ^ m) (hbad : a < 0 ∨ a.den ≠ 1) :
    formatAmountPath a d = .error .invalidOrderData ∧
      formatAmountFullPath a d = .error .invalidOrderData ∧
      fillSafetyPath a d = .error .invalidOrderData := by
  obtain ⟨h1, h2⟩ := formatPaths_fail_of_bad d hbad
  refine ⟨h1, h2, ?_⟩
  have hbad' : fillSafetyAmount a < 0 ∨ (fillSafetyAmount a).den ≠ 1 := by
    rcases hbad with hneg | hden
    · left
      rw [fillSafetyAmount, factorToFillOrder_eq]
      exact mul_neg_of_neg_of_pos hneg (by norm_num)
    · right
      intro hf
      exact hden (den_eq_one_of_fill_den_eq_one hdec hf)
  have hfull := (formatPaths_fail_of_bad d hbad').2
  rw [show fillSafetyPath a d = formatAmountFullPath (fillSafetyAmount a) d from rfl]
  exact hfull

/-- C7, witness at the negative decimal amount `-3`. -/
theorem claim_C7_witness :
    ((-3 : ℚ) = ((-3 : ℤ) : ℚ) / 10 ^ 0 ∧ ((-3 : ℚ) < 0 ∨ (-3 : ℚ).den ≠ 1)) ∧
      (formatAmountPath (-3) 2 = .error .invalidOrderData ∧
        formatAmountFullPath (-3) 2 = .error .invalidOrderData ∧
        fillSafetyPath (-3) 2 = .error .invalidOrderData) :=
  ⟨⟨by norm_num, Or.inl (by norm_num)⟩,
    claim_C7_bad_amounts_fail (-3) 2 (-3) 0 (by norm_num) (Or.inl (by norm_num))⟩

/-- C8: full-precision formatting round-trips — parsing the string produced
by `formatAmountFull` and rescaling by `10 ^ decimals` reproduces the raw
integer exactly. -/
theorem claim_C8_roundtrip (a d : Nat) :
    ∃ q : ℚ, parseDecimal (formatAmountFull a d) = some q ∧ q * 10 ^ d = (a : ℚ) :=
  parseDecimal_formatAmountFull a d

end DexBot
